import Mathlib

/-!
Verification of the mapping (dict) container validator of a schema-driven
validation engine (source: `src/validators/dict.rs`).

The dict validator's own logic (`validate`, `validate_strict`, `set_ref`,
`_validation_logic`, `apply_validator`) is translated directly from the
source.  Its collaborators — the input abstraction (`strict_dict` /
`lax_dict` extraction, `to_loc`, `to_py`), the error model
(`ValLineError`, `with_prefix_location`, the `err_val_error!` macro), the
output dictionary (`set_item`), and child validators (trait objects) —
live outside the provided source and are modelled from the spec.
-/

namespace PydanticCore

/-- Modelled from the spec: a location-item of a structural location path is
either a field/key name or an index (the "[key]" marker is the string item
"[key]").  The `errors` module defining `LocItem` is not in the provided
source. -/
inductive LocItem where
  | s : String → LocItem
  | i : Int → LocItem
deriving DecidableEq, Repr

/-- Modelled from the spec: a canonical host value (`PyObject`).  `vlist n`
stands for a mutable container object with identity `n`; such an object is
not hashable, so using it as an output-dict key makes `set_item` raise a
host-level error. -/
inductive Val where
  | vstr : String → Val
  | vint : Int → Val
  | vnone : Val
  | vlist : Nat → Val
deriving DecidableEq, Repr

/-- Error kinds: `dictTooShort` and `dictTooLong` are raised by the dict
validator itself; `dictType` by extraction; `custom` stands for any kind
produced by a delegated child validator (passed through verbatim). -/
inductive ErrorKind where
  | dictTooShort
  | dictTooLong
  | dictType
  | custom : String → ErrorKind
deriving DecidableEq, Repr

/-- Modelled from the spec: a line error is a per-element failure record
carrying an error kind, structured context, and a structural location path.
The `errors` module defining `ValLineError` is not in the provided source. -/
structure ValLineError where
  kind : ErrorKind
  location : List LocItem
  context : List (String × Nat)
deriving DecidableEq, Repr

/-- A validation error: either a list of aggregated line errors, or an
unrecoverable internal (host-level) failure. -/
inductive ValError where
  | lineErrors : List ValLineError → ValError
  | internalErr : String → ValError
deriving DecidableEq, Repr

abbrev ValResult (α : Type) := Except ValError α

/-- Modelled from the spec: `ValLineError::with_prefix_location` prepends
the given location segments to the record's location path. -/
def withPrefixLocation (loc : List LocItem) (e : ValLineError) : ValLineError :=
  { e with location := loc ++ e.location }

/-- Modelled from the spec: `as_internal` wraps a host-level error message
as a fatal internal validation error. -/
def as_internal (m : String) : ValError :=
  ValError.internalErr m

/-- Modelled from the spec: the `err_val_error!` macro builds a failed
result holding a single line error with the given kind and context and an
empty location. -/
def err_val_error {α : Type} (kind : ErrorKind) (ctx : List (String × Nat)) : ValResult α :=
  Except.error (ValError.lineErrors [{ kind := kind, location := [], context := ctx }])

/-- Modelled from the spec: an element of an extracted mapping view.  The
dict validator only uses two capabilities of such an element: `to_loc`
(its location label) and `to_py` (its output representation). -/
structure EntryInput where
  to_loc : LocItem
  to_py : Val
deriving DecidableEq, Repr

/-- An extracted mapping view: a finite sequence of (key, value) pairs.
Its `input_len` is the number of pairs. -/
abbrev DictEntries := List (EntryInput × EntryInput)

/-- Modelled from the spec: the input abstraction.  `strict_dict` accepts
only inputs already in canonical mapping shape; `lax_dict` additionally
accepts convertible shapes, and its Bool argument is the
`try_instance_as_dict` (duck-typed mapping) policy flag. -/
structure Input where
  strict_dict : ValResult DictEntries
  lax_dict : Bool → ValResult DictEntries

/-- The ambient validation context ("Extra"), read-only during a call. -/
structure Extra where
  data : Option Val
deriving DecidableEq, Repr

/-- A shared handle to a (possibly not yet built) validator, used to bind
forward references in recursive schemas. -/
structure ValidatorArc where
  ref_id : Nat
deriving DecidableEq, Repr

/-- Modelled from the spec: a child validator (a `Box<dyn Validator>` trait
object), reduced to the two capabilities the dict validator invokes on it:
`validate` and `set_ref` (the latter in state-passing form, returning the
updated validator). -/
inductive SubValidator where
  | mk (validate : EntryInput → Extra → ValResult Val)
       ( set_ref : String → ValidatorArc → Except String SubValidator) : SubValidator

def SubValidator.validate : SubValidator → EntryInput → Extra → ValResult Val
  | SubValidator.mk v _ => v

def SubValidator.set_ref : SubValidator → String → ValidatorArc → Except String SubValidator
  | SubValidator.mk _ r => r

/-- The dict validator's immutable configuration, from `DictValidator`
in the source. -/
structure DictValidator where
  strict : Bool
  key_validator : Option SubValidator
  value_validator : Option SubValidator
  min_items : Option Nat
  max_items : Option Nat
  try_instance_as_dict : Bool

def DictValidator.EXPECTED_TYPE : String := "dict"

def DictValidator.get_name (_self : DictValidator) : String :=
  DictValidator.EXPECTED_TYPE

/-- Whether a value may be used as an output-dict key.  Modelled from the
spec's host semantics: mutable containers are not hashable. -/
def hashable : Val → Bool
  | Val.vlist _ => false
  | _ => true

/-- Insertion into the output dict: replace in place if the key is already
present, else append (host dict semantics, insertion-ordered). -/
def set_item_list : List (Val × Val) → Val → Val → List (Val × Val)
  | [], k, v => [(k, v)]
  | (k0, v0) :: rest, k, v =>
      if k0 = k then (k0, v) :: rest else (k0, v0) :: set_item_list rest k v

/-- Modelled from the spec: `PyDict::set_item`, which fails with a
host-level error when the key is not hashable. -/
def set_item (output : List (Val × Val)) (k v : Val) : Except String (List (Val × Val)) :=
  if hashable k then Except.ok (set_item_list output k v)
  else Except.error "unhashable type"

/-- `apply_validator` from the source, with the `&mut Vec` of errors passed
and returned explicitly: delegates to the child validator if present (else
passes the input through as `to_py`); a child failure with line errors
appends them, location-prefixed with the entry key (plus the "[key]"
marker when validating a key), and yields no output value; any other child
error propagates. -/
def apply_validator (validator : Option SubValidator) (errors : List ValLineError)
    (input key : EntryInput) (extra : Extra) (key_loc : Bool) :
    ValResult (List ValLineError × Option Val) :=
  match validator with
  | some validator =>
    match validator.validate input extra with
    | Except.ok value => Except.ok (errors, some value)
    | Except.error (ValError.lineErrors line_errors) =>
        let loc : List LocItem :=
          if key_loc then [key.to_loc, LocItem.s "[key]"] else [key.to_loc]
        Except.ok (errors ++ line_errors.map (withPrefixLocation loc), none)
    | Except.error err => Except.error err
  | none => Except.ok (errors, some input.to_py)

/-- The body of the per-entry loop of `_validation_logic`: validate the key
then the value through `apply_validator`, and if both produced an output,
insert the pair into the output dict (an insertion failure is fatal via
`as_internal`). -/
def process_entry (kv vv : Option SubValidator) (extra : Extra)
    (entry : EntryInput × EntryInput) (output : List (Val × Val))
    (errors : List ValLineError) :
    ValResult (List (Val × Val) × List ValLineError) :=
  match apply_validator kv errors entry.1 entry.1 extra true with
  | Except.error e => Except.error e
  | Except.ok (errors1, output_key) =>
    match apply_validator vv errors1 entry.2 entry.1 extra false with
    | Except.error e => Except.error e
    | Except.ok (errors2, output_value) =>
      match output_key, output_value with
      | some k, some v =>
        match set_item output k v with
        | Except.error m => Except.error (as_internal m)
        | Except.ok output2 => Except.ok (output2, errors2)
      | _, _ => Except.ok (output, errors2)

/-- The `for (key, value) in dict.input_iter()` loop of
`_validation_logic`, in state-passing form over the output dict and the
aggregated error list. -/
def validation_loop (kv vv : Option SubValidator) (extra : Extra) :
    DictEntries → List (Val × Val) → List ValLineError →
    ValResult (List (Val × Val) × List ValLineError)
  | [], output, errors => Except.ok (output, errors)
  | entry :: rest, output, errors =>
    match process_entry kv vv extra entry output errors with
    | Except.error e => Except.error e
    | Except.ok (output2, errors2) => validation_loop kv vv extra rest output2 errors2

/-- The tail of `_validation_logic` after the size checks: run the
per-entry loop, then return the output if no line errors were collected,
else the complete aggregated list. -/
def validation_body (kv vv : Option SubValidator) (dict : DictEntries) (extra : Extra) :
    ValResult (List (Val × Val)) :=
  match validation_loop kv vv extra dict [] [] with
  | Except.error e => Except.error e
  | Except.ok (output, errors) =>
    if errors.isEmpty then Except.ok output
    else Except.error (ValError.lineErrors errors)

/-- `DictValidator::_validation_logic` from the source: the min/max size
checks (each an early return with a single line error), then the per-entry
loop and the final empty-errors test. -/
def DictValidator._validation_logic (self : DictValidator) (dict : DictEntries)
    (extra : Extra) : ValResult (List (Val × Val)) :=
  match self.min_items with
  | some min_length =>
    if dict.length < min_length then
      err_val_error ErrorKind.dictTooShort [("min_length", min_length)]
    else
      match self.max_items with
      | some max_length =>
        if dict.length > max_length then
          err_val_error ErrorKind.dictTooLong [("max_length", max_length)]
        else validation_body self.key_validator self.value_validator dict extra
      | none => validation_body self.key_validator self.value_validator dict extra
  | none =>
    match self.max_items with
    | some max_length =>
      if dict.length > max_length then
        err_val_error ErrorKind.dictTooLong [("max_length", max_length)]
      else validation_body self.key_validator self.value_validator dict extra
    | none => validation_body self.key_validator self.value_validator dict extra

/-- Step 1 of `DictValidator::validate`: extraction, selecting strict or
lax mode from the configured `strict` flag (only the lax path consults
`try_instance_as_dict`). -/
def DictValidator.extract (self : DictValidator) (input : Input) : ValResult DictEntries :=
  match self.strict with
  | true => input.strict_dict
  | false => input.lax_dict self.try_instance_as_dict

/-- `DictValidator::validate` from the source. -/
def DictValidator.validate (self : DictValidator) (input : Input) (extra : Extra) :
    ValResult (List (Val × Val)) :=
  match self.extract input with
  | Except.error e => Except.error e
  | Except.ok dict => self._validation_logic dict extra

/-- `DictValidator::validate_strict` from the source: always extracts with
`strict_dict`. -/
def DictValidator.validate_strict (self : DictValidator) (input : Input) (extra : Extra) :
    ValResult (List (Val × Val)) :=
  match input.strict_dict with
  | Except.error e => Except.error e
  | Except.ok dict => self._validation_logic dict extra

/-- `DictValidator::set_ref` from the source, in state-passing form:
recurse into the key validator and then the value validator when present;
return the validator unchanged when neither is present. -/
def DictValidator.set_ref (self : DictValidator) (name : String)
    (validator_arc : ValidatorArc) : Except String DictValidator :=
  match self.key_validator with
  | some key_validator =>
    match key_validator.set_ref name validator_arc with
    | Except.error e => Except.error e
    | Except.ok kv2 =>
      match self.value_validator with
      | some value_validator =>
        match value_validator.set_ref name validator_arc with
        | Except.error e => Except.error e
        | Except.ok vv2 =>
          Except.ok { self with key_validator := some kv2, value_validator := some vv2 }
      | none => Except.ok { self with key_validator := some kv2 }
  | none =>
    match self.value_validator with
    | some value_validator =>
      match value_validator.set_ref name validator_arc with
      | Except.error e => Except.error e
      | Except.ok vv2 => Except.ok { self with value_validator := some vv2 }
    | none => Except.ok self

/-! ### Characterization functions

Transparent recomputations of what the loop does, used to state the
properties of `validate`. -/

/-- The outcome of one sub-validation: the child's result if a child
validator is present, else the input passed through as `to_py`. -/
def subResult (v : Option SubValidator) (extra : Extra) (input : EntryInput) :
    ValResult Val :=
  match v with
  | some validator => validator.validate input extra
  | none => Except.ok input.to_py

/-- Whether a result is a fatal internal error. -/
def isInternal {α : Type} : ValResult α → Bool
  | Except.error (ValError.internalErr _) => true
  | _ => false

/-- The line errors one entry contributes: the key failure's records
prefixed with `[key-location, "[key]"]`, followed by the value failure's
records prefixed with `[key-location]`. -/
def entryErrs (kv vv : Option SubValidator) (extra : Extra)
    (entry : EntryInput × EntryInput) : List ValLineError :=
  (match subResult kv extra entry.1 with
   | Except.error (ValError.lineErrors les) =>
       les.map (withPrefixLocation [entry.1.to_loc, LocItem.s "[key]"])
   | _ => []) ++
  (match subResult vv extra entry.2 with
   | Except.error (ValError.lineErrors les) =>
       les.map (withPrefixLocation [entry.1.to_loc])
   | _ => [])

/-- All line errors of a dict, in input iteration order. -/
def aggErrs (kv vv : Option SubValidator) (extra : Extra) :
    DictEntries → List ValLineError
  | [] => []
  | entry :: rest => entryErrs kv vv extra entry ++ aggErrs kv vv extra rest

/-- The output pair an entry contributes, if both its key and its value
validated successfully. -/
def entryOut (kv vv : Option SubValidator) (extra : Extra)
    (entry : EntryInput × EntryInput) : Option (Val × Val) :=
  match subResult kv extra entry.1, subResult vv extra entry.2 with
  | Except.ok k, Except.ok v => some (k, v)
  | _, _ => none

/-- The assembled output dict: every entry whose key and value both
validated is inserted, in input iteration order. -/
def outSpec (kv vv : Option SubValidator) (extra : Extra) :
    DictEntries → List (Val × Val) → List (Val × Val)
  | [], output => output
  | entry :: rest, output =>
    match entryOut kv vv extra entry with
    | some (k, v) => outSpec kv vv extra rest (set_item_list output k v)
    | none => outSpec kv vv extra rest output

/-- An entry is clean when neither sub-validation raises an internal error
and, if both succeed, the resulting key is hashable — i.e. processing the
entry cannot abort the loop. -/
def entryClean (kv vv : Option SubValidator) (extra : Extra)
    (entry : EntryInput × EntryInput) : Bool :=
  !isInternal (subResult kv extra entry.1) &&
  !isInternal (subResult vv extra entry.2) &&
  (match entryOut kv vv extra entry with
   | some (k, _) => hashable k
   | none => true)

/-! ### Concrete fixtures for witnesses and counterexamples -/

/-- A key element labelled by a string. -/
def keyE (s : String) : EntryInput :=
  { to_loc := LocItem.s s, to_py := Val.vstr s }

/-- A value element carrying a host value. -/
def valE (v : Val) : EntryInput :=
  { to_loc := LocItem.s "value", to_py := v }

/-- An input whose strict and lax extractions both yield the given
entries. -/
def dictInput (l : DictEntries) : Input :=
  { strict_dict := Except.ok l, lax_dict := fun _ => Except.ok l }

/-- An input that is a sequence of pairs: strict extraction rejects it,
lax extraction yields the entries. -/
def pairSeqInput (l : DictEntries) : Input :=
  { strict_dict := err_val_error ErrorKind.dictType [],
    lax_dict := fun _ => Except.ok l }

def extra0 : Extra := { data := none }

/-- A child validator that passes its input through. -/
def subPass : SubValidator :=
  SubValidator.mk (fun inp _ => Except.ok inp.to_py) (fun _ _ => Except.error "unresolved")

/-- A child validator whose `set_ref` succeeds (rebinding to `subPass`). -/
def subRefOk : SubValidator :=
  SubValidator.mk (fun inp _ => Except.ok inp.to_py) (fun _ _ => Except.ok subPass)

/-- A child validator that always fails with one custom line error. -/
def subFail (k : String) : SubValidator :=
  SubValidator.mk
    (fun _ _ => Except.error (ValError.lineErrors
      [{ kind := ErrorKind.custom k, location := [], context := [] }]))
    (fun _ _ => Except.error "unresolved")

/-- A child validator that fails with an empty list of line errors. -/
def subFailEmpty : SubValidator :=
  SubValidator.mk (fun _ _ => Except.error (ValError.lineErrors []))
    (fun _ _ => Except.error "unresolved")

/-- A child validator that raises an internal error. -/
def subInternal (m : String) : SubValidator :=
  SubValidator.mk (fun _ _ => Except.error (ValError.internalErr m))
    (fun _ _ => Except.error "unresolved")

/-- A strict dict validator with no children and no bounds. -/
def dvPlain : DictValidator :=
  { strict := true, key_validator := none, value_validator := none,
    min_items := none, max_items := none, try_instance_as_dict := false }

/-- A strict dict validator with no children and bounds 1 ≤ n ≤ 2. -/
def dvBounds : DictValidator :=
  { strict := true, key_validator := none, value_validator := none,
    min_items := some 1, max_items := some 2, try_instance_as_dict := false }

/-- A strict dict validator whose value validator always fails. -/
def dvValFail : DictValidator :=
  { strict := true, key_validator := none, value_validator := some (subFail "bad"),
    min_items := none, max_items := none, try_instance_as_dict := false }

/-- A strict dict validator whose key and value validators both always
fail. -/
def dvKVFail : DictValidator :=
  { strict := true, key_validator := some (subFail "badkey"),
    value_validator := some (subFail "badval"),
    min_items := none, max_items := none, try_instance_as_dict := false }

/-- A strict dict validator whose value validator fails with an empty
list of line errors. -/
def dvValEmptyFail : DictValidator :=
  { strict := true, key_validator := none, value_validator := some subFailEmpty,
    min_items := none, max_items := none, try_instance_as_dict := false }

/-- A strict dict validator whose key validator raises an internal
error. -/
def dvKeyInternal : DictValidator :=
  { strict := true, key_validator := some (subInternal "boom"), value_validator := none,
    min_items := none, max_items := none, try_instance_as_dict := false }

/-! ### Lemmas about the loop -/

/-- `apply_validator` characterized through `subResult`. -/
theorem apply_validator_eq (v : Option SubValidator) (errors : List ValLineError)
    (input key : EntryInput) (extra : Extra) (key_loc : Bool) :
    apply_validator v errors input key extra key_loc =
      match subResult v extra input with
      | Except.ok value => Except.ok (errors, some value)
      | Except.error (ValError.lineErrors les) =>
          Except.ok (errors ++ les.map (withPrefixLocation
            (if key_loc then [key.to_loc, LocItem.s "[key]"] else [key.to_loc])), none)
      | Except.error (ValError.internalErr m) =>
          Except.error (ValError.internalErr m) := by
  cases v with
  | none => rfl
  | some validator =>
    simp only [apply_validator, subResult]
    cases validator.validate input extra with
    | ok value => rfl
    | error e => cases e <;> rfl

/-- A clean entry is processed without aborting: the output gains the
entry's pair when both sub-validations succeed, and the error list gains
exactly the entry's (key-then-value, location-prefixed) line errors. -/
theorem process_entry_clean (kv vv : Option SubValidator) (extra : Extra)
    (entry : EntryInput × EntryInput) (output : List (Val × Val))
    (errors : List ValLineError) (h : entryClean kv vv extra entry = true) :
    process_entry kv vv extra entry output errors =
      Except.ok
        ((match entryOut kv vv extra entry with
          | some (k, v) => set_item_list output k v
          | none => output),
         errors ++ entryErrs kv vv extra entry) := by
  simp only [entryClean, Bool.and_eq_true, Bool.not_eq_true'] at h
  obtain ⟨⟨hk, hv⟩, hh⟩ := h
  simp only [process_entry, apply_validator_eq, entryOut, entryErrs] at *
  cases hks : subResult kv extra entry.1 with
  | ok k =>
    cases hvs : subResult vv extra entry.2 with
    | ok v =>
      simp only [hks, hvs] at hh ⊢
      simp only [set_item, hh, if_true, List.append_nil]
    | error e =>
      cases e with
      | lineErrors les => simp [hks, hvs]
      | internalErr m => rw [hvs] at hv; simp [isInternal] at hv
  | error e =>
    cases e with
    | lineErrors les =>
      cases hvs : subResult vv extra entry.2 with
      | ok v => simp [hks, hvs, List.append_assoc]
      | error e2 =>
        cases e2 with
        | lineErrors les2 => simp [hks, hvs, List.append_assoc]
        | internalErr m => rw [hvs] at hv; simp [isInternal] at hv
    | internalErr m => rw [hks] at hk; simp [isInternal] at hk

/-- Running the loop over a clean prefix reaches the tail with the
prefix's output pairs inserted and its line errors appended. -/
theorem validation_loop_append (kv vv : Option SubValidator) (extra : Extra)
    (pre tail : DictEntries) (output : List (Val × Val)) (errors : List ValLineError)
    (hpre : pre.all (entryClean kv vv extra) = true) :
    validation_loop kv vv extra (pre ++ tail) output errors =
      validation_loop kv vv extra tail (outSpec kv vv extra pre output)
        (errors ++ aggErrs kv vv extra pre) := by
  induction pre generalizing output errors with
  | nil => simp [outSpec, aggErrs]
  | cons entry rest ih =>
    simp only [List.all_cons, Bool.and_eq_true] at hpre
    obtain ⟨hhead, hrest⟩ := hpre
    simp only [List.cons_append, validation_loop,
      process_entry_clean kv vv extra entry output errors hhead, List.append_eq]
    cases hout : entryOut kv vv extra entry with
    | none =>
      rw [ih _ _ hrest]
      simp [outSpec, aggErrs, hout, List.append_assoc]
    | some p =>
      obtain ⟨k, v⟩ := p
      rw [ih _ _ hrest]
      simp [outSpec, aggErrs, hout, List.append_assoc]

/-- The loop over a fully clean dict returns the assembled output and the
complete aggregated error list. -/
theorem validation_loop_clean (kv vv : Option SubValidator) (extra : Extra)
    (dict : DictEntries) (output : List (Val × Val)) (errors : List ValLineError)
    (hclean : dict.all (entryClean kv vv extra) = true) :
    validation_loop kv vv extra dict output errors =
      Except.ok (outSpec kv vv extra dict output, errors ++ aggErrs kv vv extra dict) := by
  have h := validation_loop_append kv vv extra dict [] output errors hclean
  simpa [validation_loop] using h

/-- When the size checks pass, `_validation_logic` is the loop followed by
the empty-errors test. -/
theorem validation_logic_size_ok (self : DictValidator) (dict : DictEntries)
    (extra : Extra)
    (hmin : ∀ m, self.min_items = some m → m ≤ dict.length)
    (hmax : ∀ m, self.max_items = some m → dict.length ≤ m) :
    self._validation_logic dict extra =
      validation_body self.key_validator self.value_validator dict extra := by
  simp only [DictValidator._validation_logic]
  cases hm : self.min_items with
  | some m =>
    have h1 := hmin m hm
    have hlt : ¬ dict.length < m := by omega
    cases hM : self.max_items with
    | some M =>
      have h2 := hmax M hM
      have hgt : ¬ dict.length > M := by omega
      simp [hlt, hgt]
    | none => simp [hlt]
  | none =>
    cases hM : self.max_items with
    | some M =>
      have h2 := hmax M hM
      have hgt : ¬ dict.length > M := by omega
      simp [hgt]
    | none => rfl

/-! ### Claim theorems -/

/-- C2: for an input extracting to `dict` with `n` entries, if `min_items`
is configured and `n < min_items` then `validate` fails with the sole
error `DictTooShort` with context `min_length = min_items`; otherwise if
`max_items` is configured and `n > max_items` it fails with the sole error
`DictTooLong` with context `max_length = max_items`.  The result does not
depend on the key/value validators, so no per-entry validation is
observable. -/
theorem size_bounds_short_circuit (self : DictValidator) (input : Input)
    (extra : Extra) (dict : DictEntries)
    (hext : self.extract input = Except.ok dict) :
    (∀ m, self.min_items = some m → dict.length < m →
      self.validate input extra = Except.error (ValError.lineErrors
        [{ kind := ErrorKind.dictTooShort, location := [],
           context := [("min_length", m)] }])) ∧
    (∀ M, self.max_items = some M → M < dict.length →
      (∀ m, self.min_items = some m → m ≤ dict.length) →
      self.validate input extra = Except.error (ValError.lineErrors
        [{ kind := ErrorKind.dictTooLong, location := [],
           context := [("max_length", M)] }])) := by
  constructor
  · intro m hm hlt
    simp only [DictValidator.validate, hext, DictValidator._validation_logic, hm]
    simp [hlt, err_val_error]
  · intro M hM hgt hmin
    simp only [DictValidator.validate, hext, DictValidator._validation_logic, hM]
    cases hm : self.min_items with
    | some m =>
      have h1 := hmin m hm
      have hlt : ¬ dict.length < m := by omega
      simp [hlt, hgt, err_val_error]
    | none => simp [hgt, err_val_error]

/-- Witness for C2: with bounds `min_items = 1, max_items = 2`, the empty
input fails with the sole error `DictTooShort {min_length: 1}`. -/
theorem size_bounds_short_circuit_witness :
    DictValidator.validate dvBounds (dictInput []) extra0 =
      Except.error (ValError.lineErrors
        [{ kind := ErrorKind.dictTooShort, location := [],
           context := [("min_length", 1)] }]) :=
  (size_bounds_short_circuit dvBounds (dictInput []) extra0 [] rfl).1 1 rfl (by decide)

/-- C6: `validate_strict` always uses strict extraction — it ignores the
configured `strict` flag and agrees with `validate` on the validator
forced to `strict = true`; consequently, for a validator configured with
`strict = true`, `validate` and `validate_strict` coincide on every input
and context. -/
theorem validate_strict_forces_strict (self : DictValidator) (input : Input)
    (extra : Extra) :
    (∀ b, DictValidator.validate_strict { self with strict := b } input extra =
        self.validate_strict input extra) ∧
    self.validate_strict input extra =
      DictValidator.validate { self with strict := true } input extra ∧
    (self.strict = true →
      self.validate input extra = self.validate_strict input extra) := by
  refine ⟨fun b => rfl, rfl, fun h => ?_⟩
  simp only [DictValidator.validate, DictValidator.extract, h,
    DictValidator.validate_strict]

/-- Witness for C6: a concrete strict validator validates a one-entry
input identically through `validate` and `validate_strict`. -/
theorem validate_strict_forces_strict_witness :
    DictValidator.validate dvPlain (dictInput [(keyE "a", valE (Val.vint 1))]) extra0 =
      DictValidator.validate_strict dvPlain (dictInput [(keyE "a", valE (Val.vint 1))]) extra0 :=
  (validate_strict_forces_strict dvPlain (dictInput [(keyE "a", valE (Val.vint 1))]) extra0).2.2 rfl

/-- C9: for a validator configured with `strict = true`, the
`try_instance_as_dict` (duck-typed mapping) flag has no effect on
`validate`: only the lax extraction path consults it. -/
theorem strict_ignores_duck_typing (self : DictValidator) (input : Input)
    (extra : Extra) (h : self.strict = true) (b : Bool) :
    DictValidator.validate { self with try_instance_as_dict := b } input extra =
      self.validate input extra := by
  simp only [DictValidator.validate, DictValidator.extract]
  rw [show ({ self with try_instance_as_dict := b } : DictValidator).strict
      = self.strict from rfl, h]
  rfl

/-- Witness for C9: flipping the duck-typing flag on a strict validator
does not change the outcome on an input whose lax extraction differs from
its strict extraction. -/
theorem strict_ignores_duck_typing_witness :
    DictValidator.validate { dvPlain with try_instance_as_dict := true }
        (pairSeqInput [(keyE "a", valE (Val.vint 1))]) extra0 =
      DictValidator.validate dvPlain (pairSeqInput [(keyE "a", valE (Val.vint 1))]) extra0 :=
  strict_ignores_duck_typing dvPlain (pairSeqInput [(keyE "a", valE (Val.vint 1))]) extra0 rfl true

/-- C8: `set_ref` recurses into `key_validator` and `value_validator`
when each is present (key first, then value, propagating each child's
failure), and returns the validator unchanged with success when neither
is present. -/
theorem set_ref_recurses_or_noop (self : DictValidator) (name : String)
    (arc : ValidatorArc) :
    (self.key_validator = none → self.value_validator = none →
      self.set_ref name arc = Except.ok self) ∧
    (∀ kv, self.key_validator = some kv → self.value_validator = none →
      self.set_ref name arc = (kv.set_ref name arc).map
        (fun kv2 => { self with key_validator := some kv2 })) ∧
    (∀ vv, self.key_validator = none → self.value_validator = some vv →
      self.set_ref name arc = (vv.set_ref name arc).map
        (fun vv2 => { self with value_validator := some vv2 })) ∧
    (∀ kv vv, self.key_validator = some kv → self.value_validator = some vv →
      self.set_ref name arc =
        (kv.set_ref name arc).bind (fun kv2 =>
          (vv.set_ref name arc).map (fun vv2 =>
            { self with key_validator := some kv2, value_validator := some vv2 }))) := by
  refine ⟨fun hk hv => ?_, fun kv hk hv => ?_, fun vv hk hv => ?_, fun kv vv hk hv => ?_⟩
  · simp [DictValidator.set_ref, hk, hv]
  · simp only [DictValidator.set_ref, hk, hv]
    cases kv.set_ref name arc <;> rfl
  · simp only [DictValidator.set_ref, hk, hv]
    cases vv.set_ref name arc <;> rfl
  · simp only [DictValidator.set_ref, hk, hv]
    cases kv.set_ref name arc with
    | error e => rfl
    | ok kv2 => cases vv.set_ref name arc <;> rfl

/-- Witness for C8: on a validator with no children, `set_ref` succeeds
and returns the validator unchanged; on a validator with both children,
it rebinds both. -/
theorem set_ref_recurses_or_noop_witness :
    dvPlain.set_ref "ref" { ref_id := 0 } = Except.ok dvPlain :=
  (set_ref_recurses_or_noop dvPlain "ref" { ref_id := 0 }).1 rfl rfl

/-- When extraction and both size checks pass, `validate` is the loop
followed by the empty-errors test. -/
theorem validate_size_ok (self : DictValidator) (input : Input) (extra : Extra)
    (dict : DictEntries) (hext : self.extract input = Except.ok dict)
    (hmin : ∀ m, self.min_items = some m → m ≤ dict.length)
    (hmax : ∀ m, self.max_items = some m → dict.length ≤ m) :
    self.validate input extra =
      validation_body self.key_validator self.value_validator dict extra := by
  simp only [DictValidator.validate, hext]
  exact validation_logic_size_ok self dict extra hmin hmax

/-- C1: for every input whose extraction and size-bound checks pass (and
whose entries are clean, i.e. no sub-validation aborts with an internal
error), every entry is processed: if any line errors were collected the
result is `Failure` with the complete aggregated list — in input
iteration order, an entry's key errors before its value errors, as
recomputed by `aggErrs` — and if none were collected the result is
`Success`. -/
theorem validate_aggregates_all_errors (self : DictValidator) (input : Input)
    (extra : Extra) (dict : DictEntries)
    (hext : self.extract input = Except.ok dict)
    (hmin : ∀ m, self.min_items = some m → m ≤ dict.length)
    (hmax : ∀ m, self.max_items = some m → dict.length ≤ m)
    (hclean : dict.all (entryClean self.key_validator self.value_validator extra) = true) :
    (aggErrs self.key_validator self.value_validator extra dict = [] →
      self.validate input extra =
        Except.ok (outSpec self.key_validator self.value_validator extra dict [])) ∧
    (aggErrs self.key_validator self.value_validator extra dict ≠ [] →
      self.validate input extra =
        Except.error (ValError.lineErrors
          (aggErrs self.key_validator self.value_validator extra dict))) := by
  rw [validate_size_ok self input extra dict hext hmin hmax]
  simp only [validation_body,
    validation_loop_clean self.key_validator self.value_validator extra dict [] [] hclean,
    List.nil_append]
  constructor
  · intro h
    simp [h]
  · intro h
    have hne : (aggErrs self.key_validator self.value_validator extra dict).isEmpty = false := by
      cases hagg : aggErrs self.key_validator self.value_validator extra dict with
      | nil => exact absurd hagg h
      | cons a l => rfl
    simp [hne]

/-- Witness for C1: a validator whose value validator rejects everything
aggregates the errors of both entries of a two-entry input, in order. -/
theorem validate_aggregates_all_errors_witness :
    DictValidator.validate dvValFail
        (dictInput [(keyE "a", valE (Val.vint 1)), (keyE "b", valE (Val.vint 2))]) extra0 =
      Except.error (ValError.lineErrors
        [{ kind := ErrorKind.custom "bad", location := [LocItem.s "a"], context := [] },
         { kind := ErrorKind.custom "bad", location := [LocItem.s "b"], context := [] }]) := by
  have h := (validate_aggregates_all_errors dvValFail
      (dictInput [(keyE "a", valE (Val.vint 1)), (keyE "b", valE (Val.vint 2))]) extra0
      [(keyE "a", valE (Val.vint 1)), (keyE "b", valE (Val.vint 2))] rfl
      (fun m hm => Option.noConfusion hm) (fun m hm => Option.noConfusion hm)
      (by decide)).2 (by decide)
  rw [h]
  rfl

/-- C3: under the same passing conditions, the outcome of `validate` is
fully determined by the per-entry recomputation: the output contains
exactly the entries whose key and value both validated (`entryOut`,
inserted in iteration order by `outSpec`), and every other entry is
omitted with its errors appended; moreover key and value are validated
independently — when both fail, both failures are recorded, the key's
(with the key marker) before the value's. -/
theorem entry_in_output_iff_both_ok (self : DictValidator) (input : Input)
    (extra : Extra) (dict : DictEntries)
    (hext : self.extract input = Except.ok dict)
    (hmin : ∀ m, self.min_items = some m → m ≤ dict.length)
    (hmax : ∀ m, self.max_items = some m → dict.length ≤ m)
    (hclean : dict.all (entryClean self.key_validator self.value_validator extra) = true) :
    self.validate input extra =
      (if (aggErrs self.key_validator self.value_validator extra dict).isEmpty then
        Except.ok (outSpec self.key_validator self.value_validator extra dict [])
      else
        Except.error (ValError.lineErrors
          (aggErrs self.key_validator self.value_validator extra dict))) ∧
    (∀ entry, entry ∈ dict → ∀ k v,
      subResult self.key_validator extra entry.1 = Except.ok k →
      subResult self.value_validator extra entry.2 = Except.ok v →
      entryOut self.key_validator self.value_validator extra entry = some (k, v) ∧
      entryErrs self.key_validator self.value_validator extra entry = []) ∧
    (∀ entry, entry ∈ dict → ∀ lk lv,
      subResult self.key_validator extra entry.1 = Except.error (ValError.lineErrors lk) →
      subResult self.value_validator extra entry.2 = Except.error (ValError.lineErrors lv) →
      entryOut self.key_validator self.value_validator extra entry = none ∧
      entryErrs self.key_validator self.value_validator extra entry =
        lk.map (withPrefixLocation [entry.1.to_loc, LocItem.s "[key]"]) ++
        lv.map (withPrefixLocation [entry.1.to_loc])) := by
  refine ⟨?_, ?_, ?_⟩
  · rw [validate_size_ok self input extra dict hext hmin hmax]
    simp only [validation_body,
      validation_loop_clean self.key_validator self.value_validator extra dict [] [] hclean,
      List.nil_append]
  · intro entry _ k v hk hv
    constructor
    · simp [entryOut, hk, hv]
    · simp [entryErrs, hk, hv]
  · intro entry _ lk lv hk hv
    constructor
    · simp [entryOut, hk, hv]
    · simp [entryErrs, hk, hv]

/-- Witness for C3: with failing key and value validators, a one-entry
input yields a `Failure` holding the key error (marked) then the value
error, and the output contains no entry. -/
theorem entry_in_output_iff_both_ok_witness :
    DictValidator.validate dvKVFail (dictInput [(keyE "a", valE (Val.vint 1))]) extra0 =
      Except.error (ValError.lineErrors
        [{ kind := ErrorKind.custom "badkey",
           location := [LocItem.s "a", LocItem.s "[key]"], context := [] },
         { kind := ErrorKind.custom "badval",
           location := [LocItem.s "a"], context := [] }]) := by
  have h := (entry_in_output_iff_both_ok dvKVFail
      (dictInput [(keyE "a", valE (Val.vint 1))]) extra0
      [(keyE "a", valE (Val.vint 1))] rfl
      (fun m hm => Option.noConfusion hm) (fun m hm => Option.noConfusion hm)
      (by decide)).1
  rw [h]
  rfl

/-- C10: an entry whose key or value sub-validator fails with an empty
list of line errors is omitted from the output, yet contributes no error
record; if no entry of the input contributed any error record, `validate`
returns `Success` — silently lacking the dropped entry. -/
theorem empty_child_failure_drops_entry (self : DictValidator) (input : Input)
    (extra : Extra) (dict : DictEntries)
    (hext : self.extract input = Except.ok dict)
    (hmin : ∀ m, self.min_items = some m → m ≤ dict.length)
    (hmax : ∀ m, self.max_items = some m → dict.length ≤ m)
    (hclean : dict.all (entryClean self.key_validator self.value_validator extra) = true)
    (entry : EntryInput × EntryInput) (_hmem : entry ∈ dict)
    (hempty : subResult self.key_validator extra entry.1 = Except.error (ValError.lineErrors [])
      ∨ subResult self.value_validator extra entry.2 = Except.error (ValError.lineErrors [])) :
    entryOut self.key_validator self.value_validator extra entry = none ∧
    (aggErrs self.key_validator self.value_validator extra dict = [] →
      self.validate input extra =
        Except.ok (outSpec self.key_validator self.value_validator extra dict [])) := by
  constructor
  · cases hempty with
    | inl hk => simp [entryOut, hk]
    | inr hv =>
      cases hk : subResult self.key_validator extra entry.1 with
      | ok k => simp [entryOut, hk, hv]
      | error e => simp [entryOut, hk]
  · intro hagg
    rw [validate_size_ok self input extra dict hext hmin hmax]
    simp only [validation_body,
      validation_loop_clean self.key_validator self.value_validator extra dict [] [] hclean,
      List.nil_append, hagg]
    rfl

/-- Witness for C10: a value validator failing with zero line errors on
the sole entry makes `validate` return `Success` with an empty output
dict. -/
theorem empty_child_failure_drops_entry_witness :
    DictValidator.validate dvValEmptyFail
        (dictInput [(keyE "a", valE (Val.vint 1))]) extra0 = Except.ok [] := by
  have h := (empty_child_failure_drops_entry dvValEmptyFail
      (dictInput [(keyE "a", valE (Val.vint 1))]) extra0
      [(keyE "a", valE (Val.vint 1))] rfl
      (fun m hm => Option.noConfusion hm) (fun m hm => Option.noConfusion hm)
      (by decide) (keyE "a", valE (Val.vint 1)) (by simp)
      (Or.inr rfl)).2 (by decide)
  rw [h]
  rfl

/-- C4: every line error of a failing key or value sub-validation is
passed through with its location prefixed by this entry's key: a key
failure's records get the prefix `[key-location, "[key]"]`, a value
failure's records the prefix `[key-location]`; the two prefixes of any
one record differ, so a failing key and a failing value at the same
position are distinguishable. -/
theorem child_errors_location_prefixed (v : SubValidator)
    (errors : List ValLineError) (input key : EntryInput) (extra : Extra)
    (les : List ValLineError)
    (h : v.validate input extra = Except.error (ValError.lineErrors les)) :
    apply_validator (some v) errors input key extra true =
      Except.ok (errors ++
        les.map (withPrefixLocation [key.to_loc, LocItem.s "[key]"]), none) ∧
    apply_validator (some v) errors input key extra false =
      Except.ok (errors ++ les.map (withPrefixLocation [key.to_loc]), none) ∧
    (∀ e : ValLineError,
      (withPrefixLocation [key.to_loc, LocItem.s "[key]"] e).location ≠
        (withPrefixLocation [key.to_loc] e).location) := by
  refine ⟨?_, ?_, ?_⟩
  · simp [apply_validator, h]
  · simp [apply_validator, h]
  · intro e heq
    simp only [withPrefixLocation] at heq
    have hlen := congrArg List.length heq
    simp at hlen

/-- Witness for C4: a rejected key's single error surfaces with location
`["k", "[key]"]`. -/
theorem child_errors_location_prefixed_witness :
    apply_validator (some (subFail "bad")) [] (keyE "k") (keyE "k") extra0 true =
      Except.ok ([{ kind := ErrorKind.custom "bad",
                    location := [LocItem.s "k", LocItem.s "[key]"],
                    context := [] }], none) := by
  have h := (child_errors_location_prefixed (subFail "bad") [] (keyE "k") (keyE "k")
      extra0 [{ kind := ErrorKind.custom "bad", location := [], context := [] }] rfl).1
  rw [h]
  rfl

/-- An error result of `apply_validator` is always internal (line errors
are collected, never propagated as the error). -/
theorem apply_validator_error_internal (v : Option SubValidator)
    (errors : List ValLineError) (input key : EntryInput) (extra : Extra)
    (key_loc : Bool) (e : ValError)
    (h : apply_validator v errors input key extra key_loc = Except.error e) :
    ∃ m, e = ValError.internalErr m := by
  rw [apply_validator_eq] at h
  cases hs : subResult v extra input with
  | ok value => rw [hs] at h; exact absurd h (by simp)
  | error err =>
    cases err with
    | lineErrors les => rw [hs] at h; exact absurd h (by simp)
    | internalErr m =>
      rw [hs] at h
      simp only [Except.error.injEq] at h
      exact ⟨m, h.symm⟩

/-- An error result of `process_entry` is always internal. -/
theorem process_entry_error_internal (kv vv : Option SubValidator) (extra : Extra)
    (entry : EntryInput × EntryInput) (output : List (Val × Val))
    (errors : List ValLineError) (e : ValError)
    (h : process_entry kv vv extra entry output errors = Except.error e) :
    ∃ m, e = ValError.internalErr m := by
  simp only [process_entry] at h
  cases h1 : apply_validator kv errors entry.1 entry.1 extra true with
  | error e1 =>
    rw [h1] at h
    simp only [Except.error.injEq] at h
    obtain ⟨m, hm⟩ := apply_validator_error_internal kv errors entry.1 entry.1 extra true e1 h1
    exact ⟨m, h ▸ hm⟩
  | ok pr =>
    obtain ⟨errors1, output_key⟩ := pr
    rw [h1] at h
    dsimp only at h
    cases h2 : apply_validator vv errors1 entry.2 entry.1 extra false with
    | error e2 =>
      rw [h2] at h
      simp only [Except.error.injEq] at h
      obtain ⟨m, hm⟩ := apply_validator_error_internal vv errors1 entry.2 entry.1 extra false e2 h2
      exact ⟨m, h ▸ hm⟩
    | ok pr2 =>
      obtain ⟨errors2, output_value⟩ := pr2
      rw [h2] at h
      dsimp only at h
      cases output_key with
      | none =>
        cases output_value <;> simp at h
      | some k =>
        cases output_value with
        | none => simp at h
        | some v =>
          dsimp only at h
          cases h3 : set_item output k v with
          | error m =>
            rw [h3] at h
            simp only [as_internal, Except.error.injEq] at h
            exact ⟨m, h.symm⟩
          | ok o2 => rw [h3] at h; simp at h

/-- An error result of the per-entry loop is always internal. -/
theorem validation_loop_error_internal (kv vv : Option SubValidator) (extra : Extra) :
    ∀ (dict : DictEntries) (output : List (Val × Val)) (errors : List ValLineError)
      (e : ValError),
    validation_loop kv vv extra dict output errors = Except.error e →
    ∃ m, e = ValError.internalErr m := by
  intro dict
  induction dict with
  | nil => intro output errors e h; simp [validation_loop] at h
  | cons entry rest ih =>
    intro output errors e h
    simp only [validation_loop] at h
    cases hp : process_entry kv vv extra entry output errors with
    | error e1 =>
      rw [hp] at h
      simp only [Except.error.injEq] at h
      obtain ⟨m, hm⟩ := process_entry_error_internal kv vv extra entry output errors e1 hp
      exact ⟨m, h ▸ hm⟩
    | ok pr =>
      obtain ⟨o2, e2⟩ := pr
      rw [hp] at h
      exact ih o2 e2 e h

/-- A key sub-validation raising an internal error makes `process_entry`
propagate exactly that error, for any output and error-list state. -/
theorem process_entry_key_internal (kv vv : Option SubValidator) (extra : Extra)
    (entry : EntryInput × EntryInput) (output : List (Val × Val))
    (errors : List ValLineError) (m : String)
    (h : subResult kv extra entry.1 = Except.error (ValError.internalErr m)) :
    process_entry kv vv extra entry output errors =
      Except.error (ValError.internalErr m) := by
  simp [process_entry, apply_validator_eq, h]

/-- A non-clean entry (internal error in a sub-validation, or an
unhashable validated key) makes `process_entry` abort with an internal
error. -/
theorem process_entry_not_clean (kv vv : Option SubValidator) (extra : Extra)
    (entry : EntryInput × EntryInput) (output : List (Val × Val))
    (errors : List ValLineError)
    (h : entryClean kv vv extra entry = false) :
    ∃ m, process_entry kv vv extra entry output errors =
      Except.error (ValError.internalErr m) := by
  cases hk : subResult kv extra entry.1 with
  | error e =>
    cases e with
    | internalErr m => exact ⟨m, process_entry_key_internal kv vv extra entry output errors m hk⟩
    | lineErrors lk =>
      cases hv : subResult vv extra entry.2 with
      | error e2 =>
        cases e2 with
        | internalErr m =>
          exact ⟨m, by simp [process_entry, apply_validator_eq, hk, hv]⟩
        | lineErrors lv =>
          exact absurd h (by simp [entryClean, isInternal, hk, hv, entryOut])
      | ok v2 => exact absurd h (by simp [entryClean, isInternal, hk, hv, entryOut])
  | ok k =>
    cases hv : subResult vv extra entry.2 with
    | error e2 =>
      cases e2 with
      | internalErr m =>
        exact ⟨m, by simp [process_entry, apply_validator_eq, hk, hv]⟩
      | lineErrors lv =>
        exact absurd h (by simp [entryClean, isInternal, hk, hv, entryOut])
    | ok v2 =>
      have hh : hashable k = false := by
        have h2 := h
        simp [entryClean, isInternal, hk, hv, entryOut] at h2
        exact h2
      refine ⟨"unhashable type", ?_⟩
      simp [process_entry, apply_validator_eq, hk, hv, set_item, hh, as_internal]

/-- C7: an internal (non-line-error) failure immediately aborts the call
and propagates as `InternalError`: `apply_validator` passes a child's
internal error straight through for every state of the error list (so it
is never appended to it), the per-entry loop can never turn an abort into
a `Failure` list, and `validate` surfaces the internal error of the first
aborting entry — whether from a key sub-validation or from output
assembly (`set_item`). -/
theorem internal_error_aborts (kv vv : Option SubValidator) (extra : Extra) :
    (∀ (v : SubValidator) (errors : List ValLineError) (input key : EntryInput)
        (key_loc : Bool) (m : String),
      v.validate input extra = Except.error (ValError.internalErr m) →
      apply_validator (some v) errors input key extra key_loc =
        Except.error (ValError.internalErr m)) ∧
    (∀ (dict : DictEntries) (output : List (Val × Val))
        (errors les : List ValLineError),
      validation_loop kv vv extra dict output errors ≠
        Except.error (ValError.lineErrors les)) ∧
    (∀ (self : DictValidator) (input : Input) (pre rest : DictEntries)
        (entry : EntryInput × EntryInput) (m : String),
      self.key_validator = kv → self.value_validator = vv →
      self.extract input = Except.ok (pre ++ entry :: rest) →
      (∀ n, self.min_items = some n → n ≤ (pre ++ entry :: rest).length) →
      (∀ n, self.max_items = some n → (pre ++ entry :: rest).length ≤ n) →
      pre.all (entryClean kv vv extra) = true →
      subResult kv extra entry.1 = Except.error (ValError.internalErr m) →
      self.validate input extra = Except.error (ValError.internalErr m)) ∧
    (∀ (self : DictValidator) (input : Input) (pre rest : DictEntries)
        (entry : EntryInput × EntryInput),
      self.key_validator = kv → self.value_validator = vv →
      self.extract input = Except.ok (pre ++ entry :: rest) →
      (∀ n, self.min_items = some n → n ≤ (pre ++ entry :: rest).length) →
      (∀ n, self.max_items = some n → (pre ++ entry :: rest).length ≤ n) →
      pre.all (entryClean kv vv extra) = true →
      entryClean kv vv extra entry = false →
      ∃ m, self.validate input extra = Except.error (ValError.internalErr m)) := by
  refine ⟨?_, ?_, ?_, ?_⟩
  · intro v errors input key key_loc m h
    simp [apply_validator, h]
  · intro dict output errors les hcontra
    obtain ⟨m, hm⟩ := validation_loop_error_internal kv vv extra dict output errors _ hcontra
    exact ValError.noConfusion hm
  · intro self input pre rest entry m hkv hvv hext hmin hmax hpre hk
    rw [validate_size_ok self input extra _ hext hmin hmax, hkv, hvv]
    simp only [validation_body]
    rw [validation_loop_append kv vv extra pre (entry :: rest) [] [] hpre]
    simp only [validation_loop, List.nil_append]
    rw [process_entry_key_internal kv vv extra entry
      (outSpec kv vv extra pre []) (aggErrs kv vv extra pre) m hk]
  · intro self input pre rest entry hkv hvv hext hmin hmax hpre hnc
    obtain ⟨m, hm⟩ := process_entry_not_clean kv vv extra entry
      (outSpec kv vv extra pre []) (aggErrs kv vv extra pre) hnc
    refine ⟨m, ?_⟩
    rw [validate_size_ok self input extra _ hext hmin hmax, hkv, hvv]
    simp only [validation_body]
    rw [validation_loop_append kv vv extra pre (entry :: rest) [] [] hpre]
    simp only [validation_loop, List.nil_append]
    rw [hm]

/-- Witness for C7: a key validator raising an internal error makes
`validate` return exactly that internal error. -/
theorem internal_error_aborts_witness :
    DictValidator.validate dvKeyInternal
        (dictInput [(keyE "a", valE (Val.vint 1))]) extra0 =
      Except.error (ValError.internalErr "boom") :=
  (internal_error_aborts (some (subInternal "boom")) none extra0).2.2.1 dvKeyInternal
    (dictInput [(keyE "a", valE (Val.vint 1))]) [] [] (keyE "a", valE (Val.vint 1)) "boom"
    rfl rfl rfl (fun _ hn => Option.noConfusion hn) (fun _ hn => Option.noConfusion hn)
    rfl rfl

/-- Inserting a key not yet present appends the pair. -/
theorem set_item_list_append (acc : List (Val × Val)) (k v : Val)
    (h : ∀ p ∈ acc, p.1 ≠ k) :
    set_item_list acc k v = acc ++ [(k, v)] := by
  induction acc with
  | nil => rfl
  | cons p rest ih =>
    obtain ⟨k0, v0⟩ := p
    have hk0 : k0 ≠ k := h (k0, v0) (List.mem_cons_self _ _)
    simp only [set_item_list, if_neg hk0, List.cons_append]
    rw [ih (fun q hq => h q (List.mem_cons_of_mem _ hq))]

/-- With no child validators, the assembled output of entries with
pairwise-distinct keys (all fresh relative to the accumulator) is the
accumulator followed by the entry-wise `to_py` image, in order. -/
theorem outSpec_passthrough (extra : Extra) (dict : DictEntries)
    (acc : List (Val × Val))
    (hdisj : ∀ e ∈ dict, ∀ p ∈ acc, p.1 ≠ e.1.to_py)
    (hnodup : (dict.map (fun e => e.1.to_py)).Nodup) :
    outSpec none none extra dict acc =
      acc ++ dict.map (fun e => (e.1.to_py, e.2.to_py)) := by
  induction dict generalizing acc with
  | nil => simp [outSpec]
  | cons e rest ih =>
    have hnodup2 := hnodup
    rw [List.map_cons, List.nodup_cons] at hnodup2
    obtain ⟨hn, hrestnodup⟩ := hnodup2
    simp only [outSpec, entryOut, subResult]
    rw [set_item_list_append acc e.1.to_py e.2.to_py
      (fun p hp => hdisj e (List.mem_cons_self _ _) p hp)]
    rw [ih (acc ++ [(e.1.to_py, e.2.to_py)]) ?_ hrestnodup]
    · simp
    · intro e2 he2 p hp
      rcases List.mem_append.1 hp with hacc | hone
      · exact hdisj e2 (List.mem_cons_of_mem _ he2) p hacc
      · have hpe : p = (e.1.to_py, e.2.to_py) := by simpa using hone
        subst hpe
        intro hEq
        dsimp only at hEq
        apply hn
        rw [hEq]
        exact List.mem_map_of_mem _ he2

/-- With no child validators, each entry contributes no error. -/
theorem aggErrs_passthrough (extra : Extra) (dict : DictEntries) :
    aggErrs none none extra dict = [] := by
  induction dict with
  | nil => rfl
  | cons e rest ih => simp [aggErrs, entryErrs, subResult, ih]

/-- Counterexample to C5 as stated: with no key/value validators and no
bounds, a lax input extracting to the two entries `("a", 1), ("a", 2)`
(a sequence of pairs with a duplicate key) validates to `Success` with
the single entry `("a", 2)` — the output-dict insertion replaced the
first pair — which is not the entry-wise identity `[("a",1), ("a",2)]`
of the extracted input. -/
theorem passthrough_not_structural_identity :
    DictValidator.validate { dvPlain with strict := false }
        (pairSeqInput [(keyE "a", valE (Val.vint 1)), (keyE "a", valE (Val.vint 2))])
        extra0 =
      Except.ok [(Val.vstr "a", Val.vint 2)] ∧
    [(Val.vstr "a", Val.vint 2)] ≠
      [(Val.vstr "a", Val.vint 1), (Val.vstr "a", Val.vint 2)] := by
  constructor
  · rfl
  · decide

/-- C5 as amended: for every input that extracts successfully and
satisfies the size bounds, a validator with no key validator and no value
validator returns `Success` with the entry-wise `to_py` image of the
extracted entries — same keys, same values, same order — provided the
extracted keys are hashable and pairwise distinct (with a duplicate key
the host dict's replace-on-insert collapses entries; with an unhashable
key `set_item` aborts the call). -/
theorem passthrough_structural_identity (self : DictValidator) (input : Input)
    (extra : Extra) (dict : DictEntries)
    (hkv : self.key_validator = none) (hvv : self.value_validator = none)
    (hext : self.extract input = Except.ok dict)
    (hmin : ∀ m, self.min_items = some m → m ≤ dict.length)
    (hmax : ∀ m, self.max_items = some m → dict.length ≤ m)
    (hhash : ∀ e ∈ dict, hashable e.1.to_py = true)
    (hnodup : (dict.map (fun e => e.1.to_py)).Nodup) :
    self.validate input extra =
      Except.ok (dict.map (fun e => (e.1.to_py, e.2.to_py))) := by
  have hclean : dict.all (entryClean none none extra) = true := by
    rw [List.all_eq_true]
    intro e he
    simp [entryClean, subResult, isInternal, entryOut, hhash e he]
  rw [validate_size_ok self input extra dict hext hmin hmax, hkv, hvv]
  simp only [validation_body,
    validation_loop_clean none none extra dict [] [] hclean,
    List.nil_append, aggErrs_passthrough, List.isEmpty_nil, if_true]
  rw [outSpec_passthrough extra dict [] (fun e _ p hp => absurd hp (List.not_mem_nil p)) hnodup]
  simp

/-- Witness for amended C5: a one-entry input round-trips. -/
theorem passthrough_structural_identity_witness :
    DictValidator.validate dvPlain (dictInput [(keyE "a", valE (Val.vint 1))]) extra0 =
      Except.ok [(Val.vstr "a", Val.vint 1)] := by
  have h := passthrough_structural_identity dvPlain
    (dictInput [(keyE "a", valE (Val.vint 1))]) extra0
    [(keyE "a", valE (Val.vint 1))] rfl rfl rfl
    (fun m hm => Option.noConfusion hm) (fun m hm => Option.noConfusion hm)
    (by decide) (by decide)
  rw [h]
  rfl

end PydanticCore
